import Mathlib

/-!
Shallow embedding of the `RxPush` template pipe
(`src/libs/template/push/src/lib/push.pipe.ts`) and of the `rxActions`
utility documented in `src/apps/docs/docs/state/actions/actions.mdx`.

Observable streams are modelled as finite lists of delivered events, in
delivery order; a subscriber callback is a fold over that list.  JS
`undefined`/`null` slots are modelled with `Option`.
-/

namespace Push

/-- `RxNotificationKind` from `@rx-angular/cdk/notifications`:
the discriminator carried by every template notification. -/
inductive RxNotificationKind : Type where
  | suspense
  | next
  | error
  | complete
deriving DecidableEq, Repr

/-- `RxNotification<T>`: a template notification, carrying its kind and
(for our purposes) its `value` slot, which may be `undefined` (`none`). -/
structure RxNotification (α : Type) : Type where
  kind : RxNotificationKind
  value : Option α
deriving DecidableEq, Repr

/-- The predicate used by `onlyValues` in `push.pipe.ts`
(lines 264–273): keep a notification iff its kind is
`Suspense` or `Next`. -/
def keepsNotification (n : RxNotification α) : Bool :=
  match n.kind with
  | .suspense => true
  | .next => true
  | .error => false
  | .complete => false

/-- `onlyValues()` from `push.pipe.ts`: `filter` the notification stream
down to `Suspense` and `Next` notifications. -/
def onlyValues (ns : List (RxNotification α)) : List (RxNotification α) :=
  ns.filter keepsNotification

/-- Modelled from the spec: `createTemplateNotifier` (from
`@rx-angular/cdk/notifications`, code of this repository that is not under
`src/`) turns an observable/promise input into a notification stream; the
spec says the pipe "renders observable/promise values", so each value
emitted by the input becomes a `Next` notification carrying that value. -/
def templateNotifier (emitted : List α) : List (RxNotification α) :=
  emitted.map (fun v => ⟨RxNotificationKind.next, some v⟩)

/-- The `setRenderedValue` subscription of `handleChangeDetection`
(`push.pipe.ts` lines 191–195): for every notification delivered by
`templateValues$` (the `onlyValues`-filtered stream), overwrite
`renderedValue` with the notification's `value`. -/
def renderedValueFrom (init : Option α) (ns : List (RxNotification α)) :
    Option α :=
  (onlyValues ns).foldl (fun _ n => n.value) init

/-- A JS own property slot: absent, present with value `undefined`, or
present with a value.  Needed because `isRxComponentInput` tests
`hasOwnProperty`, which distinguishes an absent key from one set to
`undefined`. -/
inductive OwnProp (β : Type) : Type where
  | absent
  | presentUndefined
  | present (v : β)
deriving DecidableEq, Repr

/-- `hasOwnProperty.call(value, key)`. -/
def OwnProp.isPresent : OwnProp β → Bool
  | .absent => false
  | .presentUndefined => true
  | .present _ => true

/-- Reading the property as a JS value: `undefined` (`none`) unless the
key is present with a value. -/
def OwnProp.toValue : OwnProp β → Option β
  | .absent => none
  | .presentUndefined => none
  | .present v => some v

/-- The three own properties an object config may carry, per the
`PushInput<T>` interface of `push.pipe.ts` (lines 255–259).
`σ` is the type of strategy-name values (a name string or an observable of
names), `ρ` the type of render-callback values. -/
structure PushInputObj (σ ρ : Type) : Type where
  strategy : OwnProp σ
  renderCallback : OwnProp ρ
  patchZone : OwnProp Bool
deriving DecidableEq, Repr

/-- The JS value passed as the `config` argument of `RxPush.transform`:
`undefined`, `null`, the empty string (a falsy strategy name), a truthy
non-object strategy value (a non-empty name string or an observable of
names), or an object. -/
inductive PushConfigArg (σ ρ : Type) : Type where
  | undefinedVal
  | null
  | emptyName
  | name (t : σ)
  | obj (fields : PushInputObj σ ρ)
deriving DecidableEq, Repr

/-- JS truthiness of the config argument, as tested by `if (config)`
(`push.pipe.ts` line 150). -/
def PushConfigArg.truthy : PushConfigArg σ ρ → Bool
  | .undefinedVal => false
  | .null => false
  | .emptyName => false
  | .name _ => true
  | .obj _ => true

/-- `isRxComponentInput` (`push.pipe.ts` lines 275–282): the value is not
`null`/`undefined` and has an own property `strategy`, `renderCallback`
or `patchZone`.  Strings (and observables) carry none of these keys. -/
def isRxComponentInput : PushConfigArg σ ρ → Bool
  | .obj f =>
      f.strategy.isPresent || f.renderCallback.isPresent || f.patchZone.isPresent
  | _ => false

/-- The value the `config.strategy` property read hands to
`strategyHandler.next` (`push.pipe.ts` line 152), re-expressed as a config
argument: `undefined` when the property is absent or `undefined`. -/
def strategyArgOfObj (f : PushInputObj σ ρ) : PushConfigArg σ ρ :=
  match f.strategy with
  | .present t => .name t
  | _ => .undefinedVal

/-- The value stored in the pipe's `patchZone` field: the injected
`NgZone` instance, or the literal `false`. -/
inductive PatchZoneVal : Type where
  | ngZoneInstance
  | off
deriving DecidableEq, Repr

/-- The mutable fields of one `RxPush` instance, plus ghost history
fields (`subscribeCount`, `strategyArgs`, `observedInputs`) recording the
calls the pipe makes on its collaborators. -/
structure PushState (α ι σ ρ : Type) : Type where
  renderedValue : Option α
  hasSubscription : Bool
  subscriptionActive : Bool
  subscribeCount : Nat
  strategyArgs : List (PushConfigArg σ ρ)
  observedInputs : List (Option ι)
  renderCallback : Option ρ
  patchZone : Option PatchZoneVal
deriving DecidableEq, Repr

/-- A fresh pipe instance: every field still `undefined`, no subscription. -/
def initialPushState (α ι σ ρ : Type) : PushState α ι σ ρ :=
  ⟨none, false, false, 0, [], [], none, none⟩

/-- `s` with its `renderedValue` field overwritten. -/
def withRenderedValue (s : PushState α ι σ ρ) (v : Option α) : PushState α ι σ ρ :=
  { s with renderedValue := v }

/-- `RxPush.setPatchZone` (`push.pipe.ts` lines 172–177): if `patch` is
`null`/`undefined` fall back to the provider default
`strategyProvider.config.patchZone`; store the `NgZone` instance when
patching is enabled, `false` otherwise. -/
def setPatchZone (providerDefaultPatchZone : Bool) (s : PushState α ι σ ρ)
    (patch : Option Bool) : PushState α ι σ ρ :=
  let doPatch :=
    match patch with
    | none => providerDefaultPatchZone
    | some b => b
  { s with patchZone := some (if doPatch then .ngZoneInstance else .off) }

/-- `RxPush.transform` (`push.pipe.ts` lines 140–165): store the render
callback, dispatch on the config argument, feed the input to the template
observer, create the subscription on first call, and return
`renderedValue`. -/
def transform (providerDefaultPatchZone : Bool) (s : PushState α ι σ ρ)
    (potentialObservable : Option ι) (config : PushConfigArg σ ρ)
    (renderCallback : Option ρ) : PushState α ι σ ρ × Option α :=
  let s1 := { s with renderCallback := renderCallback }
  let s2 :=
    if config.truthy then
      if isRxComponentInput config then
        match config with
        | .obj fields =>
            let sa := { s1 with
              strategyArgs := s1.strategyArgs ++ [strategyArgOfObj fields],
              renderCallback := fields.renderCallback.toValue }
            setPatchZone providerDefaultPatchZone sa fields.patchZone.toValue
        | _ => s1
      else
        { s1 with strategyArgs := s1.strategyArgs ++ [config] }
    else s1
  let s3 := { s2 with observedInputs := s2.observedInputs ++ [potentialObservable] }
  let s4 :=
    if s3.hasSubscription then s3
    else { s3 with
      hasSubscription := true
      subscriptionActive := true
      subscribeCount := s3.subscribeCount + 1 }
  (s4, s4.renderedValue)

/-- `RxPush.ngOnDestroy` (`push.pipe.ts` lines 168–170):
`this.subscription?.unsubscribe()` — a no-op while `subscription` is
still `undefined`. -/
def ngOnDestroy (s : PushState α ι σ ρ) : PushState α ι σ ρ :=
  if s.hasSubscription then { s with subscriptionActive := false } else s

/-- A multicast notification stream as the pipe's subscriptions see it:
`syncEmits` are delivered synchronously inside the `subscribe` call
itself, `laterEmits` afterwards, in order. -/
structure NotifStream (α : Type) : Type where
  syncEmits : List (RxNotification α)
  laterEmits : List (RxNotification α)
deriving DecidableEq, Repr

/-- All emissions of the stream, in delivery order. -/
def NotifStream.emissions (s : NotifStream α) : List (RxNotification α) :=
  s.syncEmits ++ s.laterEmits

/-- `templateValues$` (`push.pipe.ts` lines 101–104):
`templateObserver.values$` piped through `onlyValues()` and
`shareReplay({bufferSize: 1, refCount: true})`; the filter applies to the
synchronous and the later emissions alike.  The share operator connects
on its first subscriber, which therefore receives every emission; a
subscriber arriving after the synchronous emissions receives them only
through the buffer-1 replay (see `replayDelivery`). -/
def templateValuesOf (raw : NotifStream α) : NotifStream α :=
  ⟨onlyValues raw.syncEmits, onlyValues raw.laterEmits⟩

/-- The output of a finite boolean observable: the values emitted and
whether it completed. -/
structure BoolStream : Type where
  values : List Bool
  completed : Bool
deriving DecidableEq, Repr

/-- `RxPush.hasInitialValue` (`push.pipe.ts` lines 242–252): subscribe to
`value$`, record in a flag whether anything arrived during that
synchronous `subscribe` call, unsubscribe, emit the flag once and
complete. -/
def hasInitialValue (value : NotifStream α) : BoolStream :=
  ⟨[!value.syncEmits.isEmpty], true⟩

/-- One `strategyProvider.schedule(work, options)` call made by
`RxPush.render` (`push.pipe.ts` lines 221–239). -/
structure ScheduleCall (α : Type) : Type where
  strategyName : String
  scope : Nat
  patchZone : Option PatchZoneVal
  workRunsStrategyWork : Bool
  workReturns : Option α
deriving DecidableEq, Repr

/-- The externally visible effects the subscription of `RxPush` can
produce per notification.  `directChangeDetection` stands for
change-detection work performed outside `strategyProvider.schedule`; the
translation of `push.pipe.ts` never constructs it. -/
inductive PushEffect (α ρ : Type) : Type where
  | schedule (c : ScheduleCall α)
  | renderCbNext (cb : ρ) (v : Option α)
  | directChangeDetection
deriving DecidableEq, Repr

/-- The effects `RxPush.render` plus the trailing `tap` produce for one
notification handled by the render subscription: one
`strategyProvider.schedule` call — whose work closure runs
`strategy.work(cdRef, scope)` and returns `notification.value` — followed
by `this._renderCallback?.next(v)`. -/
def renderEffects (strategyName : String) (scope : Nat)
    (s : PushState α ι σ ρ) (v : Option α) : List (PushEffect α ρ) :=
  PushEffect.schedule ⟨strategyName, scope, s.patchZone, true, v⟩ ::
    (match s.renderCallback with
      | some cb => [PushEffect.renderCbNext cb v]
      | none => [])

/-- The per-notification behaviour of the two subscriptions created by
`handleChangeDetection` on `templateValues$` (already
`onlyValues`-filtered): the `setRenderedValue` subscription stores every
notification's `value` into `renderedValue`; the render subscription
skips the first `skipN` notifications, then handles each one through
`renderEffects`.  `strategyName` is the latest strategy from
`strategyHandler.strategy$` (`withLatestFrom`), `scope` the `cdRef`
context. -/
def runNotifs (strategyName : String) (scope : Nat) :
    PushState α ι σ ρ → Nat → List (RxNotification α) →
    PushState α ι σ ρ × List (PushEffect α ρ)
  | s, _, [] => (s, [])
  | s, Nat.succ k, n :: rest =>
      runNotifs strategyName scope { s with renderedValue := n.value } k rest
  | s, 0, n :: rest =>
      ((runNotifs strategyName scope { s with renderedValue := n.value } 0 rest).1,
        renderEffects strategyName scope { s with renderedValue := n.value } n.value ++
          (runNotifs strategyName scope { s with renderedValue := n.value } 0 rest).2)

/-- The lifetime behaviour of the subscription created by
`RxPush.handleChangeDetection` (`push.pipe.ts` lines 180–218),
given the raw `templateObserver.values$` stream: filter through
`templateValues$`, `switchMap` over the single boolean of
`hasInitialValue` (modelled as a fold: the last emission's inner run
stands), and `skip` one notification for the render subscription iff it
was `true`.  An unsubscribed subscription receives nothing.

This variant hands the full emission list to the render subscription as
well.  Its state component is exact (the first subscriber receives every
emission), and its effect list is a superset of the effects of the
replay-faithful `subscriptionRunShared`, which refines the render-side
delivery through the `shareReplay` buffer. -/
def subscriptionRun (strategyName : String) (scope : Nat)
    (s : PushState α ι σ ρ) (raw : NotifStream α) :
    PushState α ι σ ρ × List (PushEffect α ρ) :=
  if s.subscriptionActive then
    let values := templateValuesOf raw
    (hasInitialValue values).values.foldl
      (fun _ isSync =>
        runNotifs strategyName scope s (if isSync then 1 else 0) values.emissions)
      (s, [])
  else (s, [])

/-- `shareReplay({bufferSize: 1, refCount: true})` delivery to a
subscriber that arrives after the synchronous emissions have been
consumed by the first subscriber: at subscribe time it synchronously
receives only the last buffered notification, if any, followed by the
later emissions. -/
def replayDelivery (values : NotifStream α) : List (RxNotification α) :=
  (match values.syncEmits.getLast? with
    | some n => [n]
    | none => []) ++ values.laterEmits

/-- The subscription of `RxPush.handleChangeDetection` with the
staggered `shareReplay` delivery made explicit: the `setRenderedValue`
subscription subscribes first (`push.pipe.ts` line 191), connects the
share operator and receives every filtered emission; the render
subscription subscribes afterwards (line 196) and receives the buffer-1
replay followed by the later emissions (`replayDelivery`), `skip`ping
one notification iff `hasInitialValue` emitted `true`.  An unsubscribed
subscription receives nothing. -/
def subscriptionRunShared (strategyName : String) (scope : Nat)
    (s : PushState α ι σ ρ) (raw : NotifStream α) :
    PushState α ι σ ρ × List (PushEffect α ρ) :=
  if s.subscriptionActive then
    let values := templateValuesOf raw
    (hasInitialValue values).values.foldl
      (fun _ isSync =>
        ((runNotifs strategyName scope s 0 values.emissions).1,
          (runNotifs strategyName scope s (if isSync then 1 else 0)
            (replayDelivery values)).2))
      (s, [])
  else (s, [])

/-- The values returned by the work closures of the
`strategyProvider.schedule` calls in an effect list, in order: one entry
per scheduled change-detection pass. -/
def scheduledValues (effs : List (PushEffect α ρ)) : List (Option α) :=
  effs.filterMap (fun e =>
    match e with
    | .schedule c => some c.workReturns
    | _ => none)

/-- An externally triggered call on one `RxPush` instance: a `transform`
call, or the `ngOnDestroy` lifecycle hook. -/
inductive PipeOp (ι σ ρ : Type) : Type where
  | transformOp (input : Option ι) (config : PushConfigArg σ ρ) (rc : Option ρ)
  | destroyOp
deriving DecidableEq, Repr

def applyOp (pd : Bool) (s : PushState α ι σ ρ) : PipeOp ι σ ρ → PushState α ι σ ρ
  | .transformOp input config rc => (transform pd s input config rc).1
  | .destroyOp => ngOnDestroy s

def applyOps (pd : Bool) (s : PushState α ι σ ρ)
    (ops : List (PipeOp ι σ ρ)) : PushState α ι σ ρ :=
  ops.foldl (applyOp pd) s

def PipeOp.isTransformCall : PipeOp ι σ ρ → Bool
  | .transformOp _ _ _ => true
  | .destroyOp => false

/-- The `@Pipe` decorator metadata of an Angular pipe. -/
structure PipeMetadata : Type where
  name : String
  pure : Bool
  standalone : Bool
deriving DecidableEq, Repr

/-- `@Pipe({ name: 'push', pure: false, standalone: true })` on `RxPush`
(`push.pipe.ts` line 88). -/
def rxPushPipeMetadata : PipeMetadata :=
  ⟨"push", false, true⟩

/-- Modelled from the spec: the host framework re-evaluates a template
pipe's `transform` on every change-detection pass exactly when the pipe
is registered impure (the spec's glossary: "a framework-specific
construct that transforms a bound value for display, re-invoked on change
detection"). -/
def reinvokedOnEveryChangeDetection (m : PipeMetadata) : Bool :=
  !m.pure

end Push

namespace Actions

/-- Modelled from the spec: the state of one `rxActions` object (the
implementation lives in `@rx-angular/state/actions`, code of this
repository that is not under `src/`; its behaviour is documented in
`src/apps/docs/docs/state/actions/actions.mdx`).  For a declared event
interface with keys `κ` and event values `α` it holds, per key `k`, the
values emitted so far on that key's stream `k$`; the side-effect bindings
registered through the `on` shorthands (`onK`), each a key plus an
active flag; and the side-effect executions performed so far, as
(binding id, dispatched value) pairs. -/
structure ActionsState (κ α : Type) : Type where
  channels : κ → List α
  bindings : List (κ × Bool)
  executions : List (Nat × α)

/-- A fresh `rxActions` object: no emissions, no bindings, no executions. -/
def emptyActions (κ α : Type) : ActionsState κ α :=
  ⟨fun _ => [], [], []⟩

/-- Modelled from the spec: the binding ids of the side effects currently
bound (registered and not yet cleaned up) to key `k`. -/
def activeBindingsOn [DecidableEq κ] (s : ActionsState κ α) (k : κ) :
    List Nat :=
  (List.range s.bindings.length).filter (fun i =>
    match s.bindings[i]? with
    | some (k2, true) => decide (k2 = k)
    | _ => false)

/-- Modelled from the spec: calling the dispatchable function `k(v)`
appends `v` to `k`'s stream and executes every side effect currently
bound to `k` with `v`. -/
def dispatch [DecidableEq κ] (s : ActionsState κ α) (k : κ) (v : α) :
    ActionsState κ α :=
  { s with
    channels := fun k2 => if k2 = k then s.channels k2 ++ [v] else s.channels k2
    executions := s.executions ++ (activeBindingsOn s k).map (fun i => (i, v)) }

/-- Modelled from the spec: the `on` shorthand (`onK`) registers a side
effect on key `k` and returns its binding id, the handle the returned
cleanup function closes over. -/
def onAction (s : ActionsState κ α) (k : κ) : ActionsState κ α × Nat :=
  ({ s with bindings := s.bindings ++ [(k, true)] }, s.bindings.length)

/-- Modelled from the spec: the cleanup function returned by the `on`
shorthand deactivates its binding, so the side effect stops firing. -/
def cleanupBinding (s : ActionsState κ α) (i : Nat) : ActionsState κ α :=
  match s.bindings[i]? with
  | some (k, _) => { s with bindings := s.bindings.set i (k, false) }
  | none => s

/-- One call on the `rxActions` object. -/
inductive ActionOp (κ α : Type) : Type where
  | dispatchOp (k : κ) (v : α)
  | onActionOp (k : κ)
  | cleanupOp (i : Nat)

def applyActionOp [DecidableEq κ] (s : ActionsState κ α) :
    ActionOp κ α → ActionsState κ α
  | .dispatchOp k v => dispatch s k v
  | .onActionOp k => (onAction s k).1
  | .cleanupOp i => cleanupBinding s i

def applyActionOps [DecidableEq κ] (s : ActionsState κ α)
    (ops : List (ActionOp κ α)) : ActionsState κ α :=
  ops.foldl applyActionOp s

/-- The values dispatched on key `k` in an op sequence, in order. -/
def dispatchedOn [DecidableEq κ] (k : κ) (ops : List (ActionOp κ α)) :
    List α :=
  ops.filterMap (fun op =>
    match op with
    | .dispatchOp k2 v => if k2 = k then some v else none
    | _ => none)

/-- The executions performed by the side effect with binding id `i`. -/
def executionsOf (s : ActionsState κ α) (i : Nat) : List (Nat × α) :=
  s.executions.filter (fun p => p.1 == i)

/-- Binding `i` exists in `s` and has been deactivated. -/
def bindingInactive (s : ActionsState κ α) (i : Nat) : Prop :=
  ∃ key, s.bindings[i]? = some (key, false)

end Actions

namespace Push

theorem foldl_overwrite (f : β → Option α) (init : Option α) (l : List β) :
    l.foldl (fun _ n => f n) init = (l.getLast?.map f).getD init := by
  induction l generalizing init with
  | nil => rfl
  | cons x xs ih =>
    cases xs with
    | nil => rfl
    | cons y ys =>
      rw [List.foldl_cons, ih]
      rfl

theorem foldl_value_getLast (init : Option α) (l : List (RxNotification α)) :
    List.foldl (fun _ n => n.value) init l =
      (l.getLast?.map (fun n => n.value)).getD init :=
  foldl_overwrite (fun n => n.value) init l

theorem renderedValueFrom_eq_getLast (init : Option α)
    (ns : List (RxNotification α)) :
    renderedValueFrom init ns =
      ((onlyValues ns).getLast?.map (fun n => n.value)).getD init := by
  unfold renderedValueFrom
  exact foldl_overwrite _ init _

theorem onlyValues_templateNotifier (emitted : List α) :
    onlyValues (templateNotifier emitted) = templateNotifier emitted := by
  unfold onlyValues templateNotifier
  induction emitted with
  | nil => rfl
  | cons v vs ih => simp [List.filter, keepsNotification, ih]

theorem withRenderedValue_renderedValue (s : PushState α ι σ ρ) (v : Option α) :
    (withRenderedValue s v).renderedValue = v := rfl

theorem runNotifs_fst (strategyName : String) (scope : Nat)
    (s : PushState α ι σ ρ) (skipN : Nat) (ns : List (RxNotification α)) :
    (runNotifs strategyName scope s skipN ns).1 =
      withRenderedValue s (ns.foldl (fun _ n => n.value) s.renderedValue) := by
  induction ns generalizing s skipN with
  | nil => simp [runNotifs, withRenderedValue]
  | cons n rest ih =>
    cases skipN with
    | zero => simp only [runNotifs, ih, List.foldl_cons]; rfl
    | succ k => simp only [runNotifs, ih, List.foldl_cons]; rfl

theorem runNotifs_scheduledValues (strategyName : String) (scope : Nat)
    (s : PushState α ι σ ρ) (skipN : Nat) (ns : List (RxNotification α)) :
    scheduledValues (runNotifs strategyName scope s skipN ns).2 =
      (ns.drop skipN).map (fun n => n.value) := by
  induction ns generalizing s skipN with
  | nil => simp [runNotifs, scheduledValues]
  | cons n rest ih =>
    cases skipN with
    | zero =>
      simp only [runNotifs, List.drop_zero, List.map_cons]
      rw [scheduledValues, List.filterMap_append]
      have hrest := ih { s with renderedValue := n.value } 0
      simp only [List.drop_zero] at hrest
      rw [scheduledValues] at hrest
      rw [hrest]
      cases hcb : ({ s with renderedValue := n.value } : PushState α ι σ ρ).renderCallback with
      | none => simp [renderEffects, hcb]
      | some cb => simp [renderEffects, hcb]
    | succ k =>
      simp only [runNotifs, List.drop_succ_cons]
      exact ih _ k

theorem runNotifs_effects_shape (strategyName : String) (scope : Nat)
    (s : PushState α ι σ ρ) (skipN : Nat) (ns : List (RxNotification α)) :
    ∀ e ∈ (runNotifs strategyName scope s skipN ns).2,
      (∃ v, e = PushEffect.schedule ⟨strategyName, scope, s.patchZone, true, v⟩) ∨
      (∃ cb v, e = PushEffect.renderCbNext cb v) := by
  induction ns generalizing s skipN with
  | nil => intro e he; simp [runNotifs] at he
  | cons n rest ih =>
    cases skipN with
    | zero =>
      intro e he
      simp only [runNotifs, List.mem_append] at he
      rcases he with he | he
      · rw [renderEffects] at he
        rcases List.mem_cons.mp he with rfl | he
        · exact Or.inl ⟨n.value, rfl⟩
        · cases hcb : ({ s with renderedValue := n.value } : PushState α ι σ ρ).renderCallback with
          | none => rw [hcb] at he; simp at he
          | some cb =>
            rw [hcb] at he
            simp only [List.mem_singleton] at he
            exact Or.inr ⟨cb, n.value, he⟩
      · exact ih { s with renderedValue := n.value } 0 e he
    | succ k =>
      intro e he
      exact ih { s with renderedValue := n.value } k e he

theorem subscriptionRun_inactive (strategyName : String) (scope : Nat)
    (s : PushState α ι σ ρ) (raw : NotifStream α)
    (h : s.subscriptionActive = false) :
    subscriptionRun strategyName scope s raw = (s, []) := by
  simp [subscriptionRun, h]

theorem subscriptionRun_active (strategyName : String) (scope : Nat)
    (s : PushState α ι σ ρ) (raw : NotifStream α)
    (h : s.subscriptionActive = true) :
    subscriptionRun strategyName scope s raw =
      runNotifs strategyName scope s
        (if (onlyValues raw.syncEmits).isEmpty then 0 else 1)
        (onlyValues raw.syncEmits ++ onlyValues raw.laterEmits) := by
  cases hsync : (onlyValues raw.syncEmits).isEmpty <;>
    simp [subscriptionRun, hasInitialValue, templateValuesOf,
      NotifStream.emissions, h, hsync]

theorem subscriptionRun_congr (strategyName : String) (scope : Nat)
    (s : PushState α ι σ ρ) (raw raw2 : NotifStream α)
    (h : templateValuesOf raw = templateValuesOf raw2) :
    subscriptionRun strategyName scope s raw =
      subscriptionRun strategyName scope s raw2 := by
  unfold subscriptionRun
  rw [h]

theorem subscriptionRun_fst (strategyName : String) (scope : Nat)
    (s : PushState α ι σ ρ) (raw : NotifStream α)
    (h : s.subscriptionActive = true) :
    (subscriptionRun strategyName scope s raw).1 =
      withRenderedValue s (List.foldl (fun _ n => n.value)
        s.renderedValue (onlyValues (raw.syncEmits ++ raw.laterEmits))) := by
  rw [subscriptionRun_active strategyName scope s raw h, runNotifs_fst]
  unfold onlyValues
  rw [List.filter_append]

theorem subscriptionRunShared_active (strategyName : String) (scope : Nat)
    (s : PushState α ι σ ρ) (raw : NotifStream α)
    (h : s.subscriptionActive = true) :
    subscriptionRunShared strategyName scope s raw =
      ((runNotifs strategyName scope s 0 ((templateValuesOf raw).emissions)).1,
        (runNotifs strategyName scope s
          (if (onlyValues raw.syncEmits).isEmpty then 0 else 1)
          (replayDelivery (templateValuesOf raw))).2) := by
  cases hsync : (onlyValues raw.syncEmits).isEmpty <;>
    simp [subscriptionRunShared, hasInitialValue, templateValuesOf,
      NotifStream.emissions, replayDelivery, h, hsync]

theorem transform_fields (pd : Bool) (s : PushState α ι σ ρ)
    (input : Option ι) (config : PushConfigArg σ ρ) (rc : Option ρ) :
    ((transform pd s input config rc).1).renderedValue = s.renderedValue ∧
    ((transform pd s input config rc).1).hasSubscription = true ∧
    ((transform pd s input config rc).1).subscriptionActive =
      (if s.hasSubscription then s.subscriptionActive else true) ∧
    ((transform pd s input config rc).1).subscribeCount =
      (if s.hasSubscription then s.subscribeCount else s.subscribeCount + 1) ∧
    (transform pd s input config rc).2 = s.renderedValue := by
  cases config with
  | undefinedVal =>
      by_cases hs : s.hasSubscription <;>
        simp [transform, PushConfigArg.truthy, hs]
  | null =>
      by_cases hs : s.hasSubscription <;>
        simp [transform, PushConfigArg.truthy, hs]
  | emptyName =>
      by_cases hs : s.hasSubscription <;>
        simp [transform, PushConfigArg.truthy, hs]
  | name t =>
      by_cases hs : s.hasSubscription <;>
        simp [transform, PushConfigArg.truthy, isRxComponentInput, hs]
  | obj fields =>
      by_cases hrx : isRxComponentInput (PushConfigArg.obj fields) = true <;>
        by_cases hs : s.hasSubscription <;>
          simp [transform, PushConfigArg.truthy, setPatchZone, hrx, hs]

theorem applyOp_hasSubscription (pd : Bool) (s : PushState α ι σ ρ)
    (op : PipeOp ι σ ρ) :
    (applyOp pd s op).hasSubscription =
      (s.hasSubscription || op.isTransformCall) := by
  cases op with
  | transformOp input config rc =>
      rw [applyOp, (transform_fields pd s input config rc).2.1]
      simp [PipeOp.isTransformCall]
  | destroyOp =>
      by_cases hs : s.hasSubscription <;>
        simp [applyOp, ngOnDestroy, PipeOp.isTransformCall, hs]

theorem applyOp_subscribeCount (pd : Bool) (s : PushState α ι σ ρ)
    (op : PipeOp ι σ ρ) :
    (applyOp pd s op).subscribeCount = s.subscribeCount +
      (if s.hasSubscription = false ∧ op.isTransformCall = true then 1 else 0) := by
  cases op with
  | transformOp input config rc =>
      rw [applyOp, (transform_fields pd s input config rc).2.2.2.1]
      by_cases hs : s.hasSubscription <;> simp [PipeOp.isTransformCall, hs]
  | destroyOp =>
      by_cases hs : s.hasSubscription <;>
        simp [applyOp, ngOnDestroy, PipeOp.isTransformCall, hs]

theorem applyOps_subscribeCount (pd : Bool) (ops : List (PipeOp ι σ ρ)) :
    ∀ s : PushState α ι σ ρ,
      (applyOps pd s ops).subscribeCount = s.subscribeCount +
        (if s.hasSubscription = false ∧ ops.any PipeOp.isTransformCall then 1 else 0) := by
  induction ops with
  | nil => intro s; simp [applyOps]
  | cons op rest ih =>
    intro s
    have hstep : applyOps pd s (op :: rest) = applyOps pd (applyOp pd s op) rest := rfl
    rw [hstep, ih, applyOp_subscribeCount, applyOp_hasSubscription]
    by_cases hs : s.hasSubscription <;>
      cases hop : op.isTransformCall <;>
        simp [hs, hop, List.any_cons]

theorem applyOp_preserves_destroyed (pd : Bool) (s : PushState α ι σ ρ)
    (op : PipeOp ι σ ρ) (h1 : s.hasSubscription = true)
    (h2 : s.subscriptionActive = false) :
    (applyOp pd s op).hasSubscription = true ∧
      (applyOp pd s op).subscriptionActive = false := by
  cases op with
  | transformOp input config rc =>
      refine ⟨(transform_fields pd s input config rc).2.1, ?_⟩
      rw [applyOp, (transform_fields pd s input config rc).2.2.1, h1]
      simpa using h2
  | destroyOp => simp [applyOp, ngOnDestroy, h1, h2]

theorem applyOps_preserves_destroyed (pd : Bool) (ops : List (PipeOp ι σ ρ)) :
    ∀ s : PushState α ι σ ρ, s.hasSubscription = true →
      s.subscriptionActive = false →
      (applyOps pd s ops).hasSubscription = true ∧
        (applyOps pd s ops).subscriptionActive = false := by
  induction ops with
  | nil => intro s h1 h2; exact ⟨h1, h2⟩
  | cons op rest ih =>
    intro s h1 h2
    have hd := applyOp_preserves_destroyed pd s op h1 h2
    exact ih (applyOp pd s op) hd.1 hd.2

end Push

namespace Actions

theorem applyActionOps_channels [DecidableEq κ] (k : κ)
    (ops : List (ActionOp κ α)) : ∀ s : ActionsState κ α,
    (applyActionOps s ops).channels k = s.channels k ++ dispatchedOn k ops := by
  induction ops with
  | nil => intro s; simp [applyActionOps, dispatchedOn]
  | cons op rest ih =>
    intro s
    have hstep : applyActionOps s (op :: rest) =
        applyActionOps (applyActionOp s op) rest := rfl
    rw [hstep, ih]
    cases op with
    | dispatchOp k2 v =>
        by_cases hk : k2 = k
        · subst hk
          simp [applyActionOp, dispatch, dispatchedOn]
        · simp [applyActionOp, dispatch, dispatchedOn, hk, Ne.symm hk]
    | onActionOp k2 => simp [applyActionOp, onAction, dispatchedOn]
    | cleanupOp i =>
        cases hb : s.bindings[i]? with
        | none => simp [applyActionOp, cleanupBinding, hb, dispatchedOn]
        | some b => simp [applyActionOp, cleanupBinding, hb, dispatchedOn]

theorem length_of_getElem?_some {l : List β} {i : Nat} {b : β}
    (h : l[i]? = some b) : i < l.length := by
  by_contra hge
  rw [List.getElem?_eq_none (Nat.le_of_not_lt hge)] at h
  exact Option.noConfusion h

theorem cleanupBinding_inactive (s : ActionsState κ α) (i : Nat)
    (h : i < s.bindings.length) :
    bindingInactive (cleanupBinding s i) i := by
  cases hb : s.bindings[i]? with
  | none =>
      rw [List.getElem?_eq_none_iff] at hb
      exact absurd h (Nat.not_lt_of_le hb)
  | some b =>
      obtain ⟨key, act⟩ := b
      refine ⟨key, ?_⟩
      simp only [cleanupBinding, hb]
      exact List.getElem?_set_self h

theorem activeBindingsOn_ne [DecidableEq κ] (s : ActionsState κ α) (k : κ)
    (i : Nat) (key : κ) (hkey : s.bindings[i]? = some (key, false)) :
    ∀ j ∈ activeBindingsOn s k, j ≠ i := by
  intro j hj hji
  subst hji
  rw [activeBindingsOn, List.mem_filter] at hj
  rw [hkey] at hj
  simp at hj

theorem applyActionOp_inactive [DecidableEq κ] (s : ActionsState κ α)
    (i : Nat) (op : ActionOp κ α) (h : bindingInactive s i) :
    bindingInactive (applyActionOp s op) i ∧
      executionsOf (applyActionOp s op) i = executionsOf s i := by
  obtain ⟨key, hkey⟩ := h
  cases op with
  | dispatchOp k v =>
      refine ⟨⟨key, hkey⟩, ?_⟩
      simp only [applyActionOp, dispatch, executionsOf, List.filter_append]
      have hnil : ((activeBindingsOn s k).map (fun j => (j, v))).filter
          (fun p => p.1 == i) = [] := by
        rw [List.filter_eq_nil_iff]
        intro p hp
        rw [List.mem_map] at hp
        obtain ⟨j, hj, rfl⟩ := hp
        have := activeBindingsOn_ne s k i key hkey j hj
        simpa using this
      rw [hnil, List.append_nil]
  | onActionOp k =>
      have hlen : i < s.bindings.length := length_of_getElem?_some hkey
      refine ⟨⟨key, ?_⟩, rfl⟩
      simp only [applyActionOp, onAction]
      rw [List.getElem?_append_left hlen]
      exact hkey
  | cleanupOp j =>
      cases hb : s.bindings[j]? with
      | none => exact ⟨⟨key, by simp [applyActionOp, cleanupBinding, hb, hkey]⟩, by
          simp [applyActionOp, cleanupBinding, hb]⟩
      | some b =>
          obtain ⟨k2, act⟩ := b
          by_cases hij : j = i
          · subst hij
            constructor
            · refine ⟨k2, ?_⟩
              simp only [applyActionOp, cleanupBinding, hb]
              exact List.getElem?_set_self (length_of_getElem?_some hb)
            · simp only [applyActionOp, cleanupBinding, hb]
              rfl
          · constructor
            · refine ⟨key, ?_⟩
              simp only [applyActionOp, cleanupBinding, hb]
              rw [List.getElem?_set_ne hij]
              exact hkey
            · simp only [applyActionOp, cleanupBinding, hb]
              rfl

theorem applyActionOps_inactive [DecidableEq κ] (ops : List (ActionOp κ α)) :
    ∀ s : ActionsState κ α, ∀ i, bindingInactive s i →
      bindingInactive (applyActionOps s ops) i ∧
        executionsOf (applyActionOps s ops) i = executionsOf s i := by
  induction ops with
  | nil => intro s i h; exact ⟨h, rfl⟩
  | cons op rest ih =>
    intro s i h
    have hstep := applyActionOp_inactive s i op h
    have hrest := ih (applyActionOp s op) i hstep.1
    exact ⟨hrest.1, hrest.2.trans hstep.2⟩

end Actions

namespace Push

/-- C1: For every observable or promise input passed to
`RxPush.transform`, the pipe renders that input's values: after the input
emits a value, `transform` returns that most recent emitted value,
stored in `renderedValue` by the subscription to `templateValues$`;
before any emission `transform` returns `undefined`. -/
theorem c1_transform_renders_latest_value {α ι σ ρ : Type}
    (pd : Bool) (strategyName : String) (scope : Nat) (input : Option ι)
    (emitted : List α) (raw : NotifStream α)
    (hraw : raw.syncEmits ++ raw.laterEmits = templateNotifier emitted)
    (hne : emitted ≠ []) :
    (transform pd (initialPushState α ι σ ρ) input PushConfigArg.undefinedVal none).2 =
        none ∧
      (transform pd (subscriptionRun strategyName scope
          (transform pd (initialPushState α ι σ ρ) input PushConfigArg.undefinedVal none).1
          raw).1 input PushConfigArg.undefinedVal none).2 =
        some (emitted.getLast hne) := by
  have h0 := transform_fields pd (initialPushState α ι σ ρ) input
    PushConfigArg.undefinedVal none
  refine ⟨h0.2.2.2.2.trans rfl, ?_⟩
  have hactive : ((transform pd (initialPushState α ι σ ρ) input
      PushConfigArg.undefinedVal none).1).subscriptionActive = true := by
    rw [h0.2.2.1]
    rfl
  have h2 := subscriptionRun_fst strategyName scope
    (transform pd (initialPushState α ι σ ρ) input PushConfigArg.undefinedVal none).1
    raw hactive
  have h3 := transform_fields pd ((subscriptionRun strategyName scope
    (transform pd (initialPushState α ι σ ρ) input PushConfigArg.undefinedVal none).1
    raw).1) input PushConfigArg.undefinedVal none
  rw [h3.2.2.2.2, h2, withRenderedValue_renderedValue]
  rw [hraw, onlyValues_templateNotifier,
    foldl_value_getLast, templateNotifier, List.getLast?_map,
    List.getLast?_eq_getLast_of_ne_nil hne]
  rfl

theorem c1_witness :
    ([(1 : Nat), 2] ≠ []) ∧
      ((transform true (initialPushState Nat Nat Nat Nat) (some 0)
          PushConfigArg.undefinedVal none).2 = none ∧
        (transform true (subscriptionRun "normal" 0
            (transform true (initialPushState Nat Nat Nat Nat) (some 0)
              PushConfigArg.undefinedVal none).1
            ⟨[], templateNotifier [1, 2]⟩).1 (some 0)
          PushConfigArg.undefinedVal none).2 =
          some (([(1 : Nat), 2]).getLast (by decide))) :=
  ⟨by decide,
    c1_transform_renders_latest_value true "normal" 0 (some 0) [1, 2]
      ⟨[], templateNotifier [1, 2]⟩ rfl (by decide)⟩

/-- C2: Change-detection scheduling is configurable per `transform` call:
when a non-null config with an own property `strategy`, `renderCallback`
or `patchZone` is given, the strategy handler receives `config.strategy`,
the render callback is set to `config.renderCallback`, and the
patch-zone fallback (`setPatchZone`) is applied; every other truthy
config is itself forwarded to the strategy handler as the strategy
name. -/
theorem c2_config_dispatch {α ι σ ρ : Type}
    (pd : Bool) (s : PushState α ι σ ρ) (input : Option ι)
    (config : PushConfigArg σ ρ) (rc : Option ρ)
    (fields : PushInputObj σ ρ) :
    (config = PushConfigArg.obj fields → isRxComponentInput config = true →
      ((transform pd s input config rc).1).strategyArgs =
          s.strategyArgs ++ [strategyArgOfObj fields] ∧
        ((transform pd s input config rc).1).renderCallback =
          fields.renderCallback.toValue ∧
        ((transform pd s input config rc).1).patchZone =
          (setPatchZone pd s fields.patchZone.toValue).patchZone) ∧
    (config.truthy = true → isRxComponentInput config = false →
      ((transform pd s input config rc).1).strategyArgs =
        s.strategyArgs ++ [config]) := by
  constructor
  · rintro rfl hrx
    by_cases hs : s.hasSubscription <;>
      simp [transform, PushConfigArg.truthy, setPatchZone, hrx, hs]
  · intro htr hrx
    cases config with
    | undefinedVal => exact absurd htr (by simp [PushConfigArg.truthy])
    | null => exact absurd htr (by simp [PushConfigArg.truthy])
    | emptyName => exact absurd htr (by simp [PushConfigArg.truthy])
    | name t =>
        by_cases hs : s.hasSubscription <;>
          simp [transform, PushConfigArg.truthy, isRxComponentInput, hs]
    | obj f2 =>
        by_cases hs : s.hasSubscription <;>
          simp [transform, PushConfigArg.truthy, hrx, hs]

theorem c2_witness :
    (((transform true (initialPushState Nat Nat Nat Nat) (some 0)
        (PushConfigArg.obj ⟨OwnProp.present 3, OwnProp.present 4, OwnProp.absent⟩)
        none).1).strategyArgs = [PushConfigArg.name 3] ∧
      ((transform true (initialPushState Nat Nat Nat Nat) (some 0)
        (PushConfigArg.obj ⟨OwnProp.present 3, OwnProp.present 4, OwnProp.absent⟩)
        none).1).renderCallback = some 4 ∧
      ((transform true (initialPushState Nat Nat Nat Nat) (some 0)
        (PushConfigArg.obj ⟨OwnProp.present 3, OwnProp.present 4, OwnProp.absent⟩)
        none).1).patchZone = some PatchZoneVal.ngZoneInstance) ∧
    ((transform true (initialPushState Nat Nat Nat Nat) (some 0)
        (PushConfigArg.name 9) none).1).strategyArgs = [PushConfigArg.name 9] :=
  ⟨(c2_config_dispatch true (initialPushState Nat Nat Nat Nat) (some 0)
      (PushConfigArg.obj ⟨OwnProp.present 3, OwnProp.present 4, OwnProp.absent⟩)
      none ⟨OwnProp.present 3, OwnProp.present 4, OwnProp.absent⟩).1 rfl (by decide),
    (c2_config_dispatch true (initialPushState Nat Nat Nat Nat) (some 0)
      (PushConfigArg.name 9) none
      ⟨OwnProp.present 3, OwnProp.present 4, OwnProp.absent⟩).2 (by decide) (by decide)⟩

/-- C3: The pipe never performs change detection itself: every effect of
the subscription is either a `strategyProvider.schedule` call — running
the strategy's work function inside the scheduled call — or a render
callback notification; no `directChangeDetection` effect is ever
produced. -/
theorem c3_cd_only_via_schedule {α ι σ ρ : Type}
    (strategyName : String) (scope : Nat) (s : PushState α ι σ ρ)
    (raw : NotifStream α) :
    ∀ e ∈ (subscriptionRun strategyName scope s raw).2,
      e ≠ PushEffect.directChangeDetection ∧
        ∀ c : ScheduleCall α, e = PushEffect.schedule c →
          c.workRunsStrategyWork = true ∧ c.strategyName = strategyName ∧
            c.scope = scope := by
  intro e he
  cases hact : s.subscriptionActive with
  | false =>
      rw [subscriptionRun_inactive strategyName scope s raw hact] at he
      simp at he
  | true =>
      rw [subscriptionRun_active strategyName scope s raw hact] at he
      rcases runNotifs_effects_shape strategyName scope s _ _ e he with
        ⟨v, rfl⟩ | ⟨cb, v, rfl⟩
      · refine ⟨fun hcontra => PushEffect.noConfusion hcontra, ?_⟩
        intro c hc
        injection hc with h
        subst h
        exact ⟨rfl, rfl, rfl⟩
      · refine ⟨fun hcontra => PushEffect.noConfusion hcontra, ?_⟩
        intro c hc
        exact PushEffect.noConfusion hc

theorem c3_witness :
    ((PushEffect.schedule ⟨"normal", 7, none, true, some 5⟩ : PushEffect Nat Nat) ≠
        PushEffect.directChangeDetection ∧
      ∀ c : ScheduleCall Nat,
        (PushEffect.schedule ⟨"normal", 7, none, true, some 5⟩ : PushEffect Nat Nat) =
            PushEffect.schedule c →
          c.workRunsStrategyWork = true ∧ c.strategyName = "normal" ∧
            c.scope = 7) :=
  c3_cd_only_via_schedule "normal" 7
    (⟨none, true, true, 1, [], [], none, none⟩ : PushState Nat Nat Nat Nat)
    ⟨[], [⟨RxNotificationKind.next, some 5⟩]⟩
    (PushEffect.schedule ⟨"normal", 7, none, true, some 5⟩) (by decide)

/-- C4: Zone patching follows a fallback rule: for a `transform` call
with a `PushInput` config, a `null`/`undefined` `config.patchZone` makes
the provider default `strategyProvider.config.patchZone` decide; the
pipe's `patchZone` field becomes the injected `NgZone` instance when
patching is enabled and `false` otherwise, and that field's value is
passed as the `patchZone` option of every `strategyProvider.schedule`
call. -/
theorem c4_patchZone_fallback {α ι σ ρ : Type}
    (pd : Bool) (s : PushState α ι σ ρ) (input : Option ι)
    (fields : PushInputObj σ ρ) (rc : Option ρ)
    (hrx : isRxComponentInput (PushConfigArg.obj fields) = true)
    (strategyName : String) (scope : Nat) (raw : NotifStream α) :
    (fields.patchZone.toValue = none →
      ((transform pd s input (PushConfigArg.obj fields) rc).1).patchZone =
        some (if pd then PatchZoneVal.ngZoneInstance else PatchZoneVal.off)) ∧
    (∀ b : Bool, fields.patchZone.toValue = some b →
      ((transform pd s input (PushConfigArg.obj fields) rc).1).patchZone =
        some (if b then PatchZoneVal.ngZoneInstance else PatchZoneVal.off)) ∧
    (∀ c : ScheduleCall α,
      PushEffect.schedule c ∈ (subscriptionRun strategyName scope
          (transform pd s input (PushConfigArg.obj fields) rc).1 raw).2 →
        c.patchZone =
          ((transform pd s input (PushConfigArg.obj fields) rc).1).patchZone) := by
  refine ⟨?_, ?_, ?_⟩
  · intro hpz
    by_cases hs : s.hasSubscription <;>
      simp [transform, PushConfigArg.truthy, setPatchZone, hrx, hs, hpz]
  · intro b hpz
    by_cases hs : s.hasSubscription <;>
      simp [transform, PushConfigArg.truthy, setPatchZone, hrx, hs, hpz]
  · intro c hc
    cases hact : ((transform pd s input (PushConfigArg.obj fields) rc).1).subscriptionActive with
    | false =>
        rw [subscriptionRun_inactive strategyName scope _ raw hact] at hc
        simp at hc
    | true =>
        rw [subscriptionRun_active strategyName scope _ raw hact] at hc
        rcases runNotifs_effects_shape strategyName scope _ _ _ _ hc with
          ⟨v, hv⟩ | ⟨cb, v, hv⟩
        · injection hv with h
          subst h
          rfl
        · exact PushEffect.noConfusion hv

theorem c4_witness :
    (((transform true (initialPushState Nat Nat Nat Nat) (some 0)
        (PushConfigArg.obj ⟨OwnProp.absent, OwnProp.absent, OwnProp.presentUndefined⟩)
        none).1).patchZone = some PatchZoneVal.ngZoneInstance) ∧
    ((⟨"normal", 7, some PatchZoneVal.ngZoneInstance, true, some 3⟩ : ScheduleCall Nat).patchZone =
      ((transform true (initialPushState Nat Nat Nat Nat) (some 0)
        (PushConfigArg.obj ⟨OwnProp.absent, OwnProp.absent, OwnProp.presentUndefined⟩)
        none).1).patchZone) :=
  ⟨(c4_patchZone_fallback true (initialPushState Nat Nat Nat Nat) (some 0)
      ⟨OwnProp.absent, OwnProp.absent, OwnProp.presentUndefined⟩ none (by decide)
      "normal" 7 ⟨[], [⟨RxNotificationKind.next, some 3⟩]⟩).1 rfl,
    (c4_patchZone_fallback true (initialPushState Nat Nat Nat Nat) (some 0)
      ⟨OwnProp.absent, OwnProp.absent, OwnProp.presentUndefined⟩ none (by decide)
      "normal" 7 ⟨[], [⟨RxNotificationKind.next, some 3⟩]⟩).2.2
      ⟨"normal", 7, some PatchZoneVal.ngZoneInstance, true, some 3⟩ (by decide)⟩

/-- C5: The push pipe is registered as a template pipe under the name
`push` with `pure` set to `false`, so the framework re-evaluates
`transform` on every change-detection pass rather than only when the
bound reference changes. -/
theorem c5_pipe_registration :
    rxPushPipeMetadata.name = "push" ∧ rxPushPipeMetadata.pure = false ∧
      reinvokedOnEveryChangeDetection rxPushPipeMetadata = true :=
  ⟨rfl, rfl, rfl⟩

/-- C8: Only `Suspense` or `Next` notifications can change the pipe's
rendered value: inserting an `Error` or `Complete` notification anywhere
in the raw stream leaves the entire subscription outcome — final state,
`renderedValue` included, and every scheduled change-detection effect —
unchanged, because `templateValues$` filters such notifications out
before both subscriptions. -/
theorem c8_error_complete_invisible {α ι σ ρ : Type}
    (strategyName : String) (scope : Nat) (s : PushState α ι σ ρ)
    (n : RxNotification α)
    (hn : n.kind = RxNotificationKind.error ∨ n.kind = RxNotificationKind.complete)
    (sy1 sy2 la sy la1 la2 : List (RxNotification α)) :
    subscriptionRun strategyName scope s ⟨sy1 ++ n :: sy2, la⟩ =
        subscriptionRun strategyName scope s ⟨sy1 ++ sy2, la⟩ ∧
      subscriptionRun strategyName scope s ⟨sy, la1 ++ n :: la2⟩ =
        subscriptionRun strategyName scope s ⟨sy, la1 ++ la2⟩ := by
  have hkeep : keepsNotification n = false := by
    rcases hn with h | h <;> simp [keepsNotification, h]
  have hfilter : ∀ l1 l2 : List (RxNotification α),
      onlyValues (l1 ++ n :: l2) = onlyValues (l1 ++ l2) := by
    intro l1 l2
    unfold onlyValues
    simp [List.filter_append, List.filter_cons, hkeep]
  constructor
  · exact subscriptionRun_congr strategyName scope s _ _ (by
      simp [templateValuesOf, hfilter])
  · exact subscriptionRun_congr strategyName scope s _ _ (by
      simp [templateValuesOf, hfilter])

theorem c8_witness :
    subscriptionRun "normal" 0
        (⟨none, true, true, 1, [], [], none, none⟩ : PushState Nat Nat Nat Nat)
        ⟨[⟨RxNotificationKind.error, some 9⟩], []⟩ =
      subscriptionRun "normal" 0
        (⟨none, true, true, 1, [], [], none, none⟩ : PushState Nat Nat Nat Nat)
        ⟨[], []⟩ ∧
      subscriptionRun "normal" 0
          (⟨none, true, true, 1, [], [], none, none⟩ : PushState Nat Nat Nat Nat)
          ⟨[], [⟨RxNotificationKind.error, some 9⟩]⟩ =
        subscriptionRun "normal" 0
          (⟨none, true, true, 1, [], [], none, none⟩ : PushState Nat Nat Nat Nat)
          ⟨[], []⟩ :=
  c8_error_complete_invisible "normal" 0
    (⟨none, true, true, 1, [], [], none, none⟩ : PushState Nat Nat Nat Nat)
    ⟨RxNotificationKind.error, some 9⟩ (Or.inl rfl) [] [] [] [] [] []

/-- C9, counterexample: with an input that synchronously emits two
values and later a third, the pipe schedules change detection only for
the later emission — the `shareReplay` buffer-1 replay hands the render
subscription only the last synchronous notification and `skip(1)` drops
it — whereas "exactly the first emission is skipped" predicts a
scheduled pass for the second synchronous emission too
(`emissions.drop 1` is `[some 2, some 3]`, not `[some 3]`). -/
theorem c9_counterexample :
    scheduledValues (subscriptionRunShared "normal" 0
        (⟨none, true, true, 1, [], [], none, none⟩ : PushState Nat Nat Nat Nat)
        ⟨[⟨RxNotificationKind.next, some 1⟩, ⟨RxNotificationKind.next, some 2⟩],
          [⟨RxNotificationKind.next, some 3⟩]⟩).2 = [some 3] ∧
      (((templateValuesOf (⟨[⟨RxNotificationKind.next, some 1⟩,
              ⟨RxNotificationKind.next, some 2⟩],
            [⟨RxNotificationKind.next, some 3⟩]⟩ : NotifStream Nat)).emissions.drop 1).map
          (fun n => n.value)) = [some 2, some 3] ∧
      ([some 3] : List (Option Nat)) ≠ [some 2, some 3] :=
  ⟨by decide, by decide, by decide⟩

/-- C9 (amended): `hasInitialValue` emits exactly one boolean — `true`
iff subscribing to the stream yields a synchronous emission — and
completes.  When it emits `true`, the render subscription receives only
the last synchronous notification (the `shareReplay` buffer-1 replay)
before the later emissions, and `skip(1)` drops it, so no synchronous
emission schedules a change-detection pass while every later emission
does, and `renderedValue` is still updated from every emission; when it
emits `false`, every emission schedules a change-detection pass. -/
theorem c9_initial_value_skip_amended {α ι σ ρ : Type}
    (strategyName : String) (scope : Nat) (s : PushState α ι σ ρ)
    (raw : NotifStream α) (hact : s.subscriptionActive = true) :
    ((hasInitialValue (templateValuesOf raw)).values =
        [!(templateValuesOf raw).syncEmits.isEmpty] ∧
      (hasInitialValue (templateValuesOf raw)).completed = true) ∧
    ((templateValuesOf raw).syncEmits.isEmpty = false →
      scheduledValues (subscriptionRunShared strategyName scope s raw).2 =
          (templateValuesOf raw).laterEmits.map (fun n => n.value) ∧
        ((subscriptionRunShared strategyName scope s raw).1).renderedValue =
          (((templateValuesOf raw).emissions.getLast?).map
            (fun n => n.value)).getD s.renderedValue) ∧
    ((templateValuesOf raw).syncEmits.isEmpty = true →
      scheduledValues (subscriptionRunShared strategyName scope s raw).2 =
        (templateValuesOf raw).emissions.map (fun n => n.value)) := by
  have hsy : (templateValuesOf raw).syncEmits = onlyValues raw.syncEmits := rfl
  refine ⟨⟨rfl, rfl⟩, ?_, ?_⟩
  · intro hsync
    rw [hsy] at hsync
    constructor
    · rw [subscriptionRunShared_active strategyName scope s raw hact]
      rw [runNotifs_scheduledValues, hsync]
      cases hl : (templateValuesOf raw).syncEmits.getLast? with
      | none =>
          rw [List.getLast?_eq_none_iff] at hl
          rw [hsy] at hl
          rw [hl] at hsync
          simp at hsync
      | some nn => simp [replayDelivery, hl]
    · rw [subscriptionRunShared_active strategyName scope s raw hact]
      rw [runNotifs_fst, withRenderedValue_renderedValue, foldl_value_getLast]
  · intro hsync
    rw [hsy] at hsync
    have hnil : onlyValues raw.syncEmits = [] := List.isEmpty_iff.mp (by rw [hsync])
    rw [subscriptionRunShared_active strategyName scope s raw hact]
    rw [runNotifs_scheduledValues, hsync]
    have hl : (templateValuesOf raw).syncEmits.getLast? = none := by
      rw [hsy, hnil]
      rfl
    simp [replayDelivery, hl, NotifStream.emissions, hsy, hnil]

theorem c9_amended_witness :
    ((hasInitialValue (templateValuesOf
          (⟨[⟨RxNotificationKind.next, some 1⟩, ⟨RxNotificationKind.next, some 2⟩],
            [⟨RxNotificationKind.next, some 3⟩]⟩ : NotifStream Nat))).values =
        [true] ∧
      (hasInitialValue (templateValuesOf
          (⟨[⟨RxNotificationKind.next, some 1⟩, ⟨RxNotificationKind.next, some 2⟩],
            [⟨RxNotificationKind.next, some 3⟩]⟩ : NotifStream Nat))).completed =
        true) ∧
    (scheduledValues (subscriptionRunShared "normal" 0
          (⟨none, true, true, 1, [], [], none, none⟩ : PushState Nat Nat Nat Nat)
          ⟨[⟨RxNotificationKind.next, some 1⟩, ⟨RxNotificationKind.next, some 2⟩],
            [⟨RxNotificationKind.next, some 3⟩]⟩).2 = [some 3] ∧
      ((subscriptionRunShared "normal" 0
          (⟨none, true, true, 1, [], [], none, none⟩ : PushState Nat Nat Nat Nat)
          ⟨[⟨RxNotificationKind.next, some 1⟩, ⟨RxNotificationKind.next, some 2⟩],
            [⟨RxNotificationKind.next, some 3⟩]⟩).1).renderedValue = some 3) ∧
    scheduledValues (subscriptionRunShared "normal" 0
        (⟨none, true, true, 1, [], [], none, none⟩ : PushState Nat Nat Nat Nat)
        ⟨[], [⟨RxNotificationKind.next, some 2⟩]⟩).2 = [some 2] := by
  have h1 := c9_initial_value_skip_amended "normal" 0
    (⟨none, true, true, 1, [], [], none, none⟩ : PushState Nat Nat Nat Nat)
    ⟨[⟨RxNotificationKind.next, some 1⟩, ⟨RxNotificationKind.next, some 2⟩],
      [⟨RxNotificationKind.next, some 3⟩]⟩ rfl
  have h2 := c9_initial_value_skip_amended "normal" 0
    (⟨none, true, true, 1, [], [], none, none⟩ : PushState Nat Nat Nat Nat)
    ⟨[], [⟨RxNotificationKind.next, some 2⟩]⟩ rfl
  exact ⟨h1.1, h1.2.1 (by decide), h2.2.2 (by decide)⟩

/-- C10: The internal subscription is created at most once per pipe
instance — the first `transform` call creates it, later calls reuse it —
and after `ngOnDestroy` it is unsubscribed and stays unsubscribed under
any further calls, so the subscription delivers no further rendering
work. -/
theorem c10_single_subscription {α ι σ ρ : Type}
    (pd : Bool) (strategyName : String) (scope : Nat)
    (ops more : List (PipeOp ι σ ρ)) (s : PushState α ι σ ρ)
    (raw : NotifStream α) (hs : s.hasSubscription = true) :
    (applyOps pd (initialPushState α ι σ ρ) ops).subscribeCount =
        (if ops.any PipeOp.isTransformCall then 1 else 0) ∧
      (applyOps pd (ngOnDestroy s) more).subscriptionActive = false ∧
      subscriptionRun strategyName scope (applyOps pd (ngOnDestroy s) more) raw =
        (applyOps pd (ngOnDestroy s) more, []) := by
  have hd1 : (ngOnDestroy s).hasSubscription = true := by
    simp [ngOnDestroy, hs]
  have hd2 : (ngOnDestroy s).subscriptionActive = false := by
    simp [ngOnDestroy, hs]
  have hdm := applyOps_preserves_destroyed pd more (ngOnDestroy s) hd1 hd2
  refine ⟨?_, hdm.2, subscriptionRun_inactive _ _ _ _ hdm.2⟩
  rw [applyOps_subscribeCount]
  by_cases hany : ops.any PipeOp.isTransformCall <;>
    simp [initialPushState, hany]

theorem c10_witness :
    (applyOps true (initialPushState Nat Nat Nat Nat)
        [PipeOp.transformOp (some 0) PushConfigArg.undefinedVal none,
          PipeOp.transformOp (some 1) PushConfigArg.undefinedVal none]).subscribeCount =
        1 ∧
      (applyOps true (ngOnDestroy
          (⟨none, true, true, 1, [], [], none, none⟩ : PushState Nat Nat Nat Nat))
          [PipeOp.transformOp (some 2) PushConfigArg.undefinedVal none]).subscriptionActive =
        false ∧
      subscriptionRun "normal" 0
          (applyOps true (ngOnDestroy
            (⟨none, true, true, 1, [], [], none, none⟩ : PushState Nat Nat Nat Nat))
            [PipeOp.transformOp (some 2) PushConfigArg.undefinedVal none])
          ⟨[], [⟨RxNotificationKind.next, some 5⟩]⟩ =
        (applyOps true (ngOnDestroy
            (⟨none, true, true, 1, [], [], none, none⟩ : PushState Nat Nat Nat Nat))
            [PipeOp.transformOp (some 2) PushConfigArg.undefinedVal none], []) :=
  c10_single_subscription true "normal" 0
    [PipeOp.transformOp (some 0) PushConfigArg.undefinedVal none,
      PipeOp.transformOp (some 1) PushConfigArg.undefinedVal none]
    [PipeOp.transformOp (some 2) PushConfigArg.undefinedVal none]
    (⟨none, true, true, 1, [], [], none, none⟩ : PushState Nat Nat Nat Nat)
    ⟨[], [⟨RxNotificationKind.next, some 5⟩]⟩ rfl

end Push

namespace Actions

/-- C6: `rxActions` turns a declared event interface into, per key `k`,
a dispatchable function, an observable stream, and a side-effect binding
helper: dispatching appends to `k`'s stream and to no other, the stream
emits exactly the values dispatched on it, in order, and the `on`
shorthand registers an active binding for its key. -/
theorem c6_actions_streams {κ α : Type} [DecidableEq κ] (k k2 : κ) (v : α)
    (s : ActionsState κ α) (ops : List (ActionOp κ α)) :
    (applyActionOps (emptyActions κ α) ops).channels k = dispatchedOn k ops ∧
      (dispatch s k v).channels k = s.channels k ++ [v] ∧
      (k2 ≠ k → (dispatch s k v).channels k2 = s.channels k2) ∧
      ((onAction s k).1).bindings[(onAction s k).2]? = some (k, true) := by
  refine ⟨?_, ?_, ?_, ?_⟩
  · rw [applyActionOps_channels]
    simp [emptyActions]
  · simp [dispatch]
  · intro h
    simp [dispatch, h]
  · simp only [onAction]
    exact List.getElem?_concat_length s.bindings (k, true)

theorem c6_witness :
    (applyActionOps (emptyActions Nat Nat)
        [ActionOp.dispatchOp 0 5, ActionOp.dispatchOp 1 6,
          ActionOp.dispatchOp 0 7]).channels 0 =
        dispatchedOn 0
          [ActionOp.dispatchOp 0 5, ActionOp.dispatchOp 1 6,
            ActionOp.dispatchOp 0 7] ∧
      (dispatch (emptyActions Nat Nat) 0 5).channels 0 = [] ++ [5] ∧
      ((1 : Nat) ≠ 0 →
        (dispatch (emptyActions Nat Nat) 0 5).channels 1 = []) ∧
      ((onAction (emptyActions Nat Nat) 0).1).bindings[
        (onAction (emptyActions Nat Nat) 0).2]? = some (0, true) :=
  c6_actions_streams 0 1 5 (emptyActions Nat Nat)
    [ActionOp.dispatchOp 0 5, ActionOp.dispatchOp 1 6, ActionOp.dispatchOp 0 7]

/-- C7: Every side effect bound via an `on` shorthand comes with a
cleanup handle — the id the returned cleanup function closes over, valid
in the bindings table — and once the cleanup has run on an existing
binding, no subsequent sequence of dispatches (or other calls) executes
that side effect again. -/
theorem c7_cleanup_stops_effect {κ α : Type} [DecidableEq κ]
    (s : ActionsState κ α) (k : κ) (i : Nat) (h : i < s.bindings.length)
    (ops : List (ActionOp κ α)) :
    (onAction s k).2 < ((onAction s k).1).bindings.length ∧
      executionsOf (applyActionOps (cleanupBinding s i) ops) i =
        executionsOf (cleanupBinding s i) i := by
  constructor
  · simp [onAction]
  · exact (applyActionOps_inactive ops (cleanupBinding s i) i
      (cleanupBinding_inactive s i h)).2

theorem c7_witness :
    (onAction (⟨fun _ => [], [(0, true)], []⟩ : ActionsState Nat Nat) 0).2 <
        ((onAction (⟨fun _ => [], [(0, true)], []⟩ : ActionsState Nat Nat) 0).1).bindings.length ∧
      executionsOf (applyActionOps
          (cleanupBinding (⟨fun _ => [], [(0, true)], []⟩ : ActionsState Nat Nat) 0)
          [ActionOp.dispatchOp 0 5]) 0 =
        executionsOf
          (cleanupBinding (⟨fun _ => [], [(0, true)], []⟩ : ActionsState Nat Nat) 0) 0 :=
  c7_cleanup_stops_effect (⟨fun _ => [], [(0, true)], []⟩ : ActionsState Nat Nat)
    0 0 (by decide) [ActionOp.dispatchOp 0 5]

end Actions
